import Mathlib

set_option autoImplicit false

namespace StopOdds

/-! Shallow embedding of the StopOdds data layer and form logic.
The SQL schema and functions come from src/app/infra/supabase.sql; the
multi-step form logic from the SubmissionForm component and
src/app/src/lib/formConfig.ts; the submit route sanitisation from the
frontend POST handler. SQL FLOAT arithmetic is modelled exactly over the
rationals. -/

/-- A row of the `submissions` table (supabase.sql lines 20-34). The trait
columns are nullable; `trips` and `stops` are NOT NULL integers. -/
structure Submission where
  age_bracket : Option String
  gender : Option String
  ethnicity : Option String
  skin_tone : Option String
  height_bracket : Option String
  visible_disability : Option Bool
  concession : Option Bool
  trips : Int
  stops : Int
deriving DecidableEq

/-- The CHECK constraints on `submissions`: `trips >= 1 AND trips <= 200`
(line 30), `stops >= 0` (line 31) and `stops <= trips` (line 33). -/
def submissionChecks (s : Submission) : Bool :=
  decide (1 ≤ s.trips) && decide (s.trips ≤ 200) &&
    decide (0 ≤ s.stops) && decide (s.stops ≤ s.trips)

/-- Generic checked insert: a row that fails its table CHECK constraint makes
the INSERT fail (`none`); otherwise the row is appended to the store. -/
def checkedInsert {α : Type} (check : α → Bool) (store : List α) (x : α) :
    Option (List α) :=
  if check x then some (store ++ [x]) else none

/-- Attempt a sequence of checked inserts; a failed insert leaves the store
unchanged and the remaining inserts proceed. -/
def checkedInsertAll {α : Type} (check : α → Bool) (store : List α)
    (xs : List α) : List α :=
  xs.foldl (fun st x => (checkedInsert check st x).getD st) store

/-- INSERT into the `submissions` table, guarded by its CHECK constraints. -/
def insertSubmission (store : List Submission) (s : Submission) :
    Option (List Submission) :=
  checkedInsert submissionChecks store s

/-- The submissions store reached from empty by a sequence of insert
attempts. -/
def submitAll (cands : List Submission) : List Submission :=
  checkedInsertAll submissionChecks [] cands

/-- Error flag for the `trips` field in validateCurrentStep: the field is
configured with min 1 and max 200 (formConfig.ts), and the step validation
records an error when the value is below min or above max. -/
def tripsFieldError (trips : Int) : Bool :=
  decide (trips < 1) || decide (trips > 200)

/-- Error flag for the `stops` field in validateCurrentStep: the field is
configured with min 0, and a dedicated check records an error when `trips`
is truthy (non-zero) and `stops` exceeds it. -/
def stopsFieldError (trips stops : Int) : Bool :=
  decide (stops < 0) || (!decide (trips = 0) && decide (stops > trips))

/-- validateCurrentStep specialised to step 0, whose fields are `trips` and
`stops` (stepsConfig in formConfig.ts): it returns true when the error
record is empty. -/
def validateStep0 (trips stops : Int) : Bool :=
  !tripsFieldError trips && !stopsFieldError trips stops

lemma mem_checkedInsertAll {α : Type} (check : α → Bool) (xs : List α) :
    ∀ store : List α, (∀ t ∈ store, check t = true) →
      ∀ t ∈ checkedInsertAll check store xs, check t = true := by
  induction xs with
  | nil => intro store hst t ht; exact hst t ht
  | cons x xs ih =>
      intro store hst t ht
      have hstep : ∀ t ∈ (checkedInsert check store x).getD store,
          check t = true := by
        intro u hu
        by_cases hx : check x = true
        · simp [checkedInsert, hx] at hu
          rcases hu with hu | hu
          · exact hst u hu
          · exact hu ▸ hx
        · simp [checkedInsert, hx] at hu
          exact hst u hu
      exact ih _ hstep t ht

lemma submissionChecks_iff (s : Submission) :
    submissionChecks s = true ↔
      1 ≤ s.trips ∧ s.trips ≤ 200 ∧ 0 ≤ s.stops ∧ s.stops ≤ s.trips := by
  simp [submissionChecks, and_assoc]

/-- C1: a submission accepted by the insert satisfies
`1 ≤ trips ≤ 200` and `0 ≤ stops ≤ trips`; a candidate violating these is
rejected — the insert fails and the step validation of the form returns
false — and every row of a store reached from empty by insert attempts
satisfies the invariants, so an invalid candidate is never persisted. -/
theorem accepted_submission_invariants (store : List Submission)
    (s : Submission) :
    (∀ store' : List Submission, insertSubmission store s = some store' →
      1 ≤ s.trips ∧ s.trips ≤ 200 ∧ 0 ≤ s.stops ∧ s.stops ≤ s.trips) ∧
    (¬ (1 ≤ s.trips ∧ s.trips ≤ 200 ∧ 0 ≤ s.stops ∧ s.stops ≤ s.trips) →
      insertSubmission store s = none ∧
        validateStep0 s.trips s.stops = false) ∧
    (∀ cands : List Submission, ∀ t ∈ submitAll cands,
      1 ≤ t.trips ∧ t.trips ≤ 200 ∧ 0 ≤ t.stops ∧ t.stops ≤ t.trips) := by
  refine ⟨?_, ?_, ?_⟩
  · intro store' hins
    by_cases hc : submissionChecks s = true
    · exact (submissionChecks_iff s).mp hc
    · simp [insertSubmission, checkedInsert, hc] at hins
  · intro hbad
    have hc : submissionChecks s = false := by
      rcases Bool.eq_false_or_eq_true (submissionChecks s) with h | h
      · exact absurd ((submissionChecks_iff s).mp h) hbad
      · exact h
    refine ⟨by simp [insertSubmission, checkedInsert, hc], ?_⟩
    have hbad' : ¬ (1 ≤ s.trips) ∨ ¬ (s.trips ≤ 200) ∨
        ¬ (0 ≤ s.stops) ∨ ¬ (s.stops ≤ s.trips) := by tauto
    simp only [validateStep0, tripsFieldError, stopsFieldError,
      Bool.and_eq_false_iff, Bool.not_eq_false', Bool.or_eq_true,
      decide_eq_true_eq, Bool.and_eq_true, Bool.not_eq_true',
      decide_eq_false_iff_not]
    omega
  · intro cands t ht
    have h := mem_checkedInsertAll submissionChecks cands []
      (by intro u hu; simp at hu) t ht
    exact (submissionChecks_iff t).mp h

/-- A candidate with trips = 300 used as a concrete rejected input. -/
def overTripsCandidate : Submission :=
  ⟨none, none, none, none, none, none, none, 300, 0⟩

/-- Witness for C1: the invalid candidate (trips = 300, stops = 0) is
rejected by the insert and by the form validation. -/
theorem accepted_submission_invariants_witness :
    insertSubmission [] overTripsCandidate = none ∧
      validateStep0 300 0 = false :=
  (accepted_submission_invariants [] overTripsCandidate).2.1 (by decide)

/-- The SQL function calculate_rate_per_100 (supabase.sql lines 93-101):
returns 0 when trips = 0, otherwise stops / trips × 100 in FLOAT
arithmetic, modelled exactly over ℚ. -/
def calculate_rate_per_100 (stops trips : Int) : ℚ :=
  if trips = 0 then 0 else ((stops : ℚ) / (trips : ℚ)) * 100

/-- C4: calculate_rate_per_100 is total, returns exactly 0 when trips = 0,
and otherwise returns stops / trips × 100. -/
theorem calculate_rate_per_100_spec (stops trips : Int) :
    (trips = 0 → calculate_rate_per_100 stops trips = 0) ∧
    (trips ≠ 0 →
      calculate_rate_per_100 stops trips = (stops : ℚ) / (trips : ℚ) * 100) := by
  constructor
  · intro h; simp [calculate_rate_per_100, h]
  · intro h; simp [calculate_rate_per_100, h]

/-- Witness for C4: at trips = 0 the rate is 0, and at (stops, trips) =
(1, 20) the rate is 5 per 100. -/
theorem calculate_rate_per_100_spec_witness :
    calculate_rate_per_100 1 0 = 0 ∧ calculate_rate_per_100 1 20 = 5 := by
  constructor
  · exact (calculate_rate_per_100_spec 1 0).1 rfl
  · have h := (calculate_rate_per_100_spec 1 20).2 (by decide)
    rw [h]; norm_num

/-- SUM(trips) over a set of submissions. -/
def sum_trips (subs : List Submission) : Int :=
  (subs.map (fun s => s.trips)).sum

/-- SUM(stops) over a set of submissions (COALESCE to 0 on the empty set,
which the list sum already gives). -/
def sum_stops (subs : List Submission) : Int :=
  (subs.map (fun s => s.stops)).sum

/-- The minimum-submission threshold declared in check_minimum_sample. -/
def min_submissions : Int := 500

/-- The minimum-stops threshold declared in check_minimum_sample. -/
def min_stops : Int := 100

/-- The SQL function check_minimum_sample (supabase.sql lines 104-125):
returns (total_submissions, total_stops, meets_minimum) where
meets_minimum is sub_count >= 500 AND stop_count >= 100. -/
def check_minimum_sample (subs : List Submission) : Int × Int × Bool :=
  let sub_count : Int := subs.length
  let stop_count : Int := sum_stops subs
  (sub_count, stop_count,
    decide (sub_count ≥ min_submissions) && decide (stop_count ≥ min_stops))

/-- C3: the activation gate holds exactly when the corpus has at least 500
submissions and at least 100 total stops; in particular it is false for any
corpus of 499 submissions, false for any corpus with 99 total stops, and
true for any corpus crossing both thresholds. -/
theorem check_minimum_sample_spec (subs : List Submission) :
    ((check_minimum_sample subs).2.2 = true ↔
      (subs.length : Int) ≥ 500 ∧ sum_stops subs ≥ 100) ∧
    (subs.length = 499 → (check_minimum_sample subs).2.2 = false) ∧
    (sum_stops subs = 99 → (check_minimum_sample subs).2.2 = false) ∧
    ((subs.length : Int) ≥ 500 → sum_stops subs ≥ 100 →
      (check_minimum_sample subs).2.2 = true) := by
  refine ⟨?_, ?_, ?_, ?_⟩
  · simp [check_minimum_sample, min_submissions, min_stops]
  · intro h
    simp [check_minimum_sample, min_submissions, min_stops, h]
  · intro h
    simp [check_minimum_sample, min_submissions, min_stops, h]
  · intro h1 h2
    simp [check_minimum_sample, min_submissions, min_stops, h1, h2]

/-- A fixed valid submission used to build concrete corpora. -/
def plainSubmission : Submission :=
  ⟨none, none, none, none, none, none, none, 10, 1⟩

set_option maxRecDepth 4000 in
/-- Witness for C3: a corpus of 499 submissions fails the gate, and a corpus
of 500 submissions with one stop each (500 total stops) meets it. -/
theorem check_minimum_sample_spec_witness :
    (check_minimum_sample (List.replicate 499 plainSubmission)).2.2 = false ∧
      (check_minimum_sample (List.replicate 500 plainSubmission)).2.2 = true := by
  constructor
  · exact (check_minimum_sample_spec _).2.1 (by simp)
  · refine (check_minimum_sample_spec _).2.2.2 (by simp) ?_
    have h : sum_stops (List.replicate 500 plainSubmission) = 500 := by
      simp [sum_stops, plainSubmission, List.map_replicate]
    omega

/-- The four rows inserted by insert_sample_data (supabase.sql lines
151-164). -/
def sampleSubmissions : List Submission :=
  [⟨some "25-34", some "Male", some "Anglo Australian", some "Light",
      some "175-190", some false, some false, 20, 1⟩,
   ⟨some "35-44", some "Female", some "South Asian", some "Medium",
      some "160-175", some false, some true, 25, 2⟩,
   ⟨some "18-24", some "Nonbinary", some "East Asian", some "Light",
      some "<160", some false, some true, 15, 0⟩,
   ⟨some "45+", some "Male", some "Indigenous", some "Dark",
      some ">190", some true, some true, 30, 3⟩]

/-- C6: aggregating the four sample submissions with no trait filtering
gives n_trips = 90, n_stops = 6, and a rate per 100 of 20/3, whose value
rounded to two decimal places is 6.67 (the spec states the rounded
value). -/
theorem sample_data_aggregate :
    sum_trips sampleSubmissions = 90 ∧
    sum_stops sampleSubmissions = 6 ∧
    calculate_rate_per_100 (sum_stops sampleSubmissions)
        (sum_trips sampleSubmissions) = 20 / 3 ∧
    round ((20 / 3 : ℚ) * 100) = (667 : ℤ) := by
  refine ⟨by decide, by decide, ?_, ?_⟩
  · have h1 : sum_trips sampleSubmissions = 90 := by decide
    have h2 : sum_stops sampleSubmissions = 6 := by decide
    rw [h1, h2]
    norm_num [calculate_rate_per_100]
  · norm_num [round_eq]

/-- The avg_rate_per_100 column of the public_stats view (supabase.sql
lines 128-136): the SQL AVG of the per-person rates
calculate_rate_per_100(stops, trips), i.e. their sum divided by the row
count. -/
def avg_rate_per_100 (subs : List Submission) : ℚ :=
  (subs.map (fun s => calculate_rate_per_100 s.stops s.trips)).sum /
    (subs.length : ℚ)

/-- The additive aggregate rate as the spec words it: the sum of stops over
the sum of trips within the group, times 100. Stated from the spec for
comparison with the view definition. -/
def additive_rate_per_100 (subs : List Submission) : ℚ :=
  calculate_rate_per_100 (sum_stops subs) (sum_trips subs)

/-- Counterexample for C5: on the four sample submissions the view column
avg_rate_per_100 does not equal the additive rate, so the aggregate rate of
public_stats is not computed additively. -/
theorem avg_rate_not_additive :
    avg_rate_per_100 sampleSubmissions ≠
      additive_rate_per_100 sampleSubmissions := by
  have h1 : avg_rate_per_100 sampleSubmissions = 23 / 4 := by
    norm_num [avg_rate_per_100, sampleSubmissions, calculate_rate_per_100]
  have h2 : additive_rate_per_100 sampleSubmissions = 20 / 3 := by
    have ht : sum_trips sampleSubmissions = 90 := by decide
    have hs : sum_stops sampleSubmissions = 6 := by decide
    rw [additive_rate_per_100, ht, hs]
    norm_num [calculate_rate_per_100]
  rw [h1, h2]
  norm_num

/-- C5 amended: avg_rate_per_100 of public_stats is the mean of the
per-person rates stops_i / trips_i × 100, which on the four sample
submissions equals 5.75 while the additive rate (sum of stops over sum of
trips × 100) equals 20/3; the two disagree. -/
theorem avg_rate_is_mean_of_person_rates :
    avg_rate_per_100 sampleSubmissions = 23 / 4 ∧
    additive_rate_per_100 sampleSubmissions = 20 / 3 ∧
    avg_rate_per_100 sampleSubmissions ≠
      additive_rate_per_100 sampleSubmissions := by
  have h1 : avg_rate_per_100 sampleSubmissions = 23 / 4 := by
    norm_num [avg_rate_per_100, sampleSubmissions, calculate_rate_per_100]
  have h2 : additive_rate_per_100 sampleSubmissions = 20 / 3 := by
    have ht : sum_trips sampleSubmissions = 90 := by decide
    have hs : sum_stops sampleSubmissions = 6 := by decide
    rw [additive_rate_per_100, ht, hs]
    norm_num [calculate_rate_per_100]
  refine ⟨h1, h2, ?_⟩
  rw [h1, h2]
  norm_num

/-- A row of the `aggregates_public` table (supabase.sql lines 49-60): a
published group cell with its counts, rate and optional IRR statistics. -/
structure GroupCell where
  group_key : String
  n_people : Int
  n_trips : Int
  n_stops : Int
  rate_per_100 : ℚ
  irr_vs_ref : Option ℚ
  confidence_interval_lower : Option ℚ
  confidence_interval_upper : Option ℚ
deriving DecidableEq

/-- The CHECK constraint on `aggregates_public`: n_people >= 50 (the
k-anonymity floor, line 52). -/
def aggregateChecks (c : GroupCell) : Bool :=
  decide (50 ≤ c.n_people)

/-- INSERT into `aggregates_public`, guarded by the k-anonymity CHECK. -/
def insertAggregate (store : List GroupCell) (c : GroupCell) :
    Option (List GroupCell) :=
  checkedInsert aggregateChecks store c

/-- The published aggregates store reached from empty by a sequence of
insert attempts. -/
def publishAggregates (cells : List GroupCell) : List GroupCell :=
  checkedInsertAll aggregateChecks [] cells

/-- C2: every cell present in the published aggregates store has
n_people ≥ 50; a cell with n_people < 50 fails the insert outright —
whatever its other fields hold, including nulled IRR statistics — and is
absent from any published store. -/
theorem published_cells_k_anonymous :
    (∀ cells : List GroupCell, ∀ c ∈ publishAggregates cells,
      50 ≤ c.n_people) ∧
    (∀ store : List GroupCell, ∀ c : GroupCell, c.n_people < 50 →
      insertAggregate store c = none ∧
        ∀ cells : List GroupCell, c ∉ publishAggregates cells) := by
  have hmem : ∀ cells : List GroupCell, ∀ c ∈ publishAggregates cells,
      50 ≤ c.n_people := by
    intro cells c hc
    have h := mem_checkedInsertAll aggregateChecks cells []
      (by intro u hu; simp at hu) c hc
    simpa [aggregateChecks] using h
  refine ⟨hmem, ?_⟩
  intro store c hlt
  have hfail : aggregateChecks c = false := by
    simp [aggregateChecks]; omega
  refine ⟨by simp [insertAggregate, checkedInsert, hfail], ?_⟩
  intro cells hc
  exact absurd (hmem cells c hc) (by omega)

/-- A cell of 49 people with nulled IRR statistics, used as a concrete
suppressed input. -/
def lowCountCell : GroupCell :=
  ⟨"gender=Nonbinary", 49, 400, 20, 5, none, none, none⟩

/-- Witness for C2: the 49-person cell is rejected by the insert and is not
in the store published from a list containing it. -/
theorem published_cells_k_anonymous_witness :
    insertAggregate [] lowCountCell = none ∧
      lowCountCell ∉ publishAggregates [lowCountCell] := by
  have h := published_cells_k_anonymous.2 [] lowCountCell (by decide)
  exact ⟨h.1, h.2 [lowCountCell]⟩

/-- The model_type enumeration (supabase.sql line 17). -/
inductive ModelType where
  | poisson : ModelType
  | negbin : ModelType
  | lightgbm : ModelType
deriving DecidableEq

/-- A row of the `model_runs` table (supabase.sql lines 37-46), with the
JSONB metrics and coefficient payloads kept opaque. -/
structure ModelRun where
  run_id : Nat
  model_type : ModelType
  train_rows : Int
  metrics : Option String
  coeffs : Option String
  notes : Option String
deriving DecidableEq

/-- Modelled from the spec: the ModelRegistry publish operation is not under
src (src only declares the `model_runs` table and its public_snapshot
flag); §4.5 of the spec describes the registry as an append-only store of
ModelRun records plus a single current-published pointer. -/
structure ModelRegistry where
  runs : List ModelRun
  current : Option Nat

/-- Modelled from the spec: publish(run_id) atomically swaps the current
pointer and does not delete or mutate prior runs. -/
def publish (reg : ModelRegistry) (rid : Nat) : ModelRegistry :=
  { runs := reg.runs, current := some rid }

/-- The runs designated as currently published: those whose run_id the
current pointer names. -/
def currentPublished (reg : ModelRegistry) : List ModelRun :=
  reg.runs.filter (fun r => reg.current = some r.run_id)

/-- C7: when run_id is a primary key (distinct stored runs have distinct
run_ids), at most one run is the current published run, both before and
after a publish; and publishing changes no stored field of any run — the
whole runs list is unchanged, so every run other than the published one
keeps its coefficients, metrics and all other columns. -/
theorem publish_moves_only_pointer (reg : ModelRegistry) (rid : Nat)
    (hpk : ∀ r1 ∈ reg.runs, ∀ r2 ∈ reg.runs, r1.run_id = r2.run_id → r1 = r2) :
    (∀ r1 ∈ currentPublished reg, ∀ r2 ∈ currentPublished reg, r1 = r2) ∧
    (∀ r1 ∈ currentPublished (publish reg rid),
      ∀ r2 ∈ currentPublished (publish reg rid), r1 = r2) ∧
    (publish reg rid).runs = reg.runs := by
  refine ⟨?_, ?_, rfl⟩
  · intro r1 h1 r2 h2
    rw [currentPublished, List.mem_filter] at h1 h2
    have e1 : reg.current = some r1.run_id := by
      simpa using h1.2
    have e2 : reg.current = some r2.run_id := by
      simpa using h2.2
    have : r1.run_id = r2.run_id := by
      rw [e1] at e2; exact Option.some_inj.mp e2
    exact hpk r1 h1.1 r2 h2.1 this
  · intro r1 h1 r2 h2
    rw [currentPublished, List.mem_filter] at h1 h2
    have e1 : (publish reg rid).current = some r1.run_id := by
      simpa using h1.2
    have e2 : (publish reg rid).current = some r2.run_id := by
      simpa using h2.2
    have : r1.run_id = r2.run_id := by
      rw [e1] at e2; exact Option.some_inj.mp e2
    have h1m : r1 ∈ reg.runs := h1.1
    have h2m : r2 ∈ reg.runs := h2.1
    exact hpk r1 h1m r2 h2m this

/-- A registry with two distinct runs, run 0 currently published. -/
def twoRunRegistry : ModelRegistry :=
  { runs := [⟨0, ModelType.poisson, 600, some "aic 10", some "b0 -2.0", none⟩,
             ⟨1, ModelType.negbin, 700, some "aic 9", some "b0 -2.1", none⟩],
    current := some 0 }

/-- Witness for C7: publishing run 1 over the two-run registry leaves the
stored runs list unchanged. -/
theorem publish_moves_only_pointer_witness :
    (publish twoRunRegistry 1).runs = twoRunRegistry.runs :=
  (publish_moves_only_pointer twoRunRegistry 1 (by decide)).2.2

/-- The fixed application salt appended in hash_user_agent (supabase.sql
line 88). -/
def stopodds_salt : String := "stopodds_salt"

/-- The salted pre-hash input of hash_user_agent (supabase.sql lines
84-90): user_agent || CURRENT_DATE::TEXT || the fixed salt. -/
def hash_user_agent_input (user_agent date : String) : String :=
  user_agent ++ date ++ stopodds_salt

/-- The SQL function hash_user_agent, with the sha256-hex digest primitive
abstracted as a function of the pre-hash input: the token is the digest of
user_agent || CURRENT_DATE::TEXT || salt. The user agent reaches the token
only through the digest of this input. -/
def hash_user_agent (digest : String → String) (user_agent date : String) :
    String :=
  digest (hash_user_agent_input user_agent date)

/-- C8: the token is a deterministic function of the user agent and the
calendar day — two computations with the same user agent on the same day
agree for any digest — and for the same user agent on two distinct days the
salted pre-hash inputs differ, so the daily salt rotation changes the
digest input. That the raw user agent is not recoverable from the token is
the preimage resistance of the sha256 digest primitive, outside this
embedding. -/
theorem hash_user_agent_daily (digest : String → String)
    (ua d1 d2 : String) :
    (d1 = d2 → hash_user_agent digest ua d1 = hash_user_agent digest ua d2) ∧
    (d1 ≠ d2 →
      hash_user_agent_input ua d1 ≠ hash_user_agent_input ua d2) := by
  constructor
  · intro h; rw [h]
  · intro hne heq
    apply hne
    have hdata : (ua ++ d1 ++ stopodds_salt).data =
        (ua ++ d2 ++ stopodds_salt).data := by
      simp only [hash_user_agent_input] at heq
      rw [heq]
    simp only [String.data_append] at hdata
    have h1 : ua.data ++ d1.data = ua.data ++ d2.data :=
      List.append_cancel_right hdata
    have h2 : d1.data = d2.data := List.append_cancel_left h1
    exact String.ext h2

/-- Witness for C8: the same user agent on consecutive dates yields equal
tokens on the same day and distinct pre-hash inputs across the two days. -/
theorem hash_user_agent_daily_witness :
    hash_user_agent_input "Mozilla/5.0" "2026-10-11" ≠
      hash_user_agent_input "Mozilla/5.0" "2026-10-12" :=
  (hash_user_agent_daily (fun s => s) "Mozilla/5.0" "2026-10-11"
    "2026-10-12").2 (by decide)

/-- A JSON value as handled by the frontend submit route: the payload
fields are strings, numbers, booleans or null. -/
inductive JsonValue where
  | jnull : JsonValue
  | jbool : Bool → JsonValue
  | jnum : ℚ → JsonValue
  | jstr : String → JsonValue
deriving DecidableEq

/-- The per-field sanitisation of the submit route POST handler: a value
that is exactly the string PreferNot becomes null; any other value is kept
as is. -/
def sanitizeField (v : JsonValue) : JsonValue :=
  if v = JsonValue.jstr "PreferNot" then JsonValue.jnull else v

/-- The submit route body sanitisation: every top-level field of the JSON
body is passed through sanitizeField (the Object.keys forEach loop), keys
unchanged. -/
def sanitizeBody (body : List (String × JsonValue)) :
    List (String × JsonValue) :=
  body.map (fun kv => (kv.1, sanitizeField kv.2))

/-- The values of height_bracket_enum in the database schema (supabase.sql
line 16). -/
def height_bracket_enum : List String :=
  ["<160", "160-175", "175-190", ">190"]

/-- The option values of the height_bracket form field (formConfig.ts lines
77-88). -/
def height_bracket_form_options : List String :=
  ["<160", "160-175", "175-190", ">190", "PreferNot"]

lemma sanitizeField_ne_preferNot (v : JsonValue) :
    sanitizeField v ≠ JsonValue.jstr "PreferNot" := by
  rw [sanitizeField]
  split
  · intro h; exact JsonValue.noConfusion h
  · assumption

/-- C9: the forwarded body never contains the value PreferNot at any
top-level field; a field whose value is not PreferNot is forwarded
unchanged; a PreferNot field is forwarded as null; and the form offers
PreferNot for height_bracket while the database enum height_bracket_enum
does not include it. -/
theorem submit_route_sanitizes_prefer_not
    (body : List (String × JsonValue)) :
    (∀ kv ∈ sanitizeBody body, kv.2 ≠ JsonValue.jstr "PreferNot") ∧
    (∀ kv ∈ body, kv.2 ≠ JsonValue.jstr "PreferNot" →
      kv ∈ sanitizeBody body) ∧
    (∀ k : String, (k, JsonValue.jstr "PreferNot") ∈ body →
      (k, JsonValue.jnull) ∈ sanitizeBody body) ∧
    ("PreferNot" ∈ height_bracket_form_options ∧
      "PreferNot" ∉ height_bracket_enum) := by
  refine ⟨?_, ?_, ?_, by decide, by decide⟩
  · intro kv hkv
    rw [sanitizeBody, List.mem_map] at hkv
    rcases hkv with ⟨kv0, _, hkv0⟩
    rw [← hkv0]
    exact sanitizeField_ne_preferNot kv0.2
  · intro kv hkv hne
    rw [sanitizeBody, List.mem_map]
    refine ⟨kv, hkv, ?_⟩
    have : sanitizeField kv.2 = kv.2 := by
      rw [sanitizeField, if_neg hne]
    rw [this]
  · intro k hk
    rw [sanitizeBody, List.mem_map]
    refine ⟨(k, JsonValue.jstr "PreferNot"), hk, ?_⟩
    rw [sanitizeField, if_pos rfl]

/-- A concrete submit body with a PreferNot height bracket and a plain
gender value. -/
def preferNotBody : List (String × JsonValue) :=
  [("height_bracket", JsonValue.jstr "PreferNot"),
   ("gender", JsonValue.jstr "Male"),
   ("trips", JsonValue.jnum 20), ("stops", JsonValue.jnum 1)]

/-- Witness for C9: on the concrete body, the gender field passes through
unchanged and the PreferNot height bracket is forwarded as null. -/
theorem submit_route_sanitizes_prefer_not_witness :
    ("gender", JsonValue.jstr "Male") ∈ sanitizeBody preferNotBody ∧
      ("height_bracket", JsonValue.jnull) ∈ sanitizeBody preferNotBody := by
  have h := submit_route_sanitizes_prefer_not preferNotBody
  refine ⟨h.2.1 ("gender", JsonValue.jstr "Male") (by decide) (by decide),
    h.2.2.1 "height_bracket" (by decide)⟩

/-- A user action on the multi-step form: Next (carrying whether the
current step passed validation, since handleNext advances only then) or
Previous. -/
inductive FormAction where
  | nextStep : Bool → FormAction
  | previousStep : FormAction

/-- totalSteps from formConfig.ts (line 114). -/
def totalSteps : Int := 4

/-- One transition of currentStep: handleNext sets
min(currentStep + 1, totalSteps - 1) when validation passes and leaves the
step otherwise; handlePrevious sets max(currentStep - 1, 0). -/
def stepAfter (step : Int) : FormAction → Int
  | FormAction.nextStep valid =>
      if valid then min (step + 1) (totalSteps - 1) else step
  | FormAction.previousStep => max (step - 1) 0

/-- The step reached from the initial currentStep = 0 by a sequence of
Next/Previous actions. -/
def runForm (acts : List FormAction) : Int :=
  acts.foldl stepAfter 0

/-- stepsConfig from getFieldsByStep (formConfig.ts lines 103-112). -/
def stepsConfig : List (List String) :=
  [["trips", "stops"], ["age_bracket", "gender"],
   ["ethnicity", "skin_tone"],
   ["height_bracket", "visible_disability", "concession"]]

/-- The ids of the formFields array (formConfig.ts lines 3-101). -/
def formFieldIds : List String :=
  ["trips", "stops", "age_bracket", "gender", "ethnicity", "skin_tone",
   "height_bracket", "visible_disability", "concession"]

/-- The stepsConfig[step] lookup of getFieldsByStep over a possibly
out-of-range integer index: a JS array index outside [0, length) gives
undefined (here none). -/
def stepLookup (step : Int) : Option (List String) :=
  if 0 ≤ step then stepsConfig.get? step.toNat else none

/-- getFieldsByStep (formConfig.ts lines 103-112): the form fields whose id
the step row of stepsConfig contains; an undefined row keeps no field. -/
def getFieldsByStep (step : Int) : List String :=
  formFieldIds.filter (fun i => ((stepLookup step).getD []).contains i)

lemma stepAfter_in_range (s : Int) (a : FormAction) (h0 : 0 ≤ s)
    (h3 : s ≤ totalSteps - 1) :
    0 ≤ stepAfter s a ∧ stepAfter s a ≤ totalSteps - 1 := by
  cases a with
  | nextStep valid =>
      by_cases hv : valid
      · simp only [stepAfter, if_pos hv]
        rw [totalSteps] at h3 ⊢
        constructor
        · exact le_min (by omega) (by omega)
        · exact min_le_right _ _
      · simp only [stepAfter, if_neg hv]
        exact ⟨h0, h3⟩
  | previousStep =>
      simp only [stepAfter]
      rw [totalSteps] at h3 ⊢
      constructor
      · exact le_max_right _ _
      · exact max_le (by omega) (by omega)

lemma foldl_stepAfter_in_range (acts : List FormAction) :
    ∀ s : Int, 0 ≤ s → s ≤ totalSteps - 1 →
      0 ≤ acts.foldl stepAfter s ∧
        acts.foldl stepAfter s ≤ totalSteps - 1 := by
  induction acts with
  | nil => intro s h0 h3; exact ⟨h0, h3⟩
  | cons a acts ih =>
      intro s h0 h3
      have h := stepAfter_in_range s a h0 h3
      exact ih (stepAfter s a) h.1 h.2

/-- C10: every step reachable from 0 by a sequence of Next/Previous actions
lies in [0, totalSteps - 1], and at every reachable step the
stepsConfig[step] lookup of getFieldsByStep succeeds — it is never applied
to an out-of-range index. -/
theorem currentStep_stays_in_range (acts : List FormAction) :
    0 ≤ runForm acts ∧ runForm acts ≤ totalSteps - 1 ∧
      (stepLookup (runForm acts)).isSome = true := by
  have h := foldl_stepAfter_in_range acts 0 (by omega)
    (by rw [totalSteps]; omega)
  rw [runForm]
  refine ⟨h.1, h.2, ?_⟩
  have h1 := h.1
  have h2 := h.2
  rw [totalSteps] at h2
  set s := acts.foldl stepAfter 0 with hs
  have : s = 0 ∨ s = 1 ∨ s = 2 ∨ s = 3 := by omega
  rcases this with h | h | h | h <;> rw [h] <;> decide

end StopOdds
